import Mathlib

/-!
Shallow embedding of the `cppcliargs` command-line argument parser
(`src/cppcliargs.hpp`).  The data model mirrors the C++ header:

* `ArgValue` is the closed 3-variant value type `std::variant<int, bool, std::string>`
  (C++ `int` is 32-bit; the machine range shows up in `fromCharsInt` below).
* `ArgMap` models `std::map<char, ArgValue>`: a key-sorted association list,
  updated by `mapSet` (ordered insert-or-assign, like `result[k] = v`).
* `Config` mirrors `cppcliargs::Config` (defaults, long_names, required, help).
  `std::set<char>` and `std::map<char, ...>` iterate in ascending key order, so
  `required` and `long_names` are lists carrying that iteration order.
* `parse` mirrors `parser::operator()`; its argument is the token list
  excluding the program name (the loop starts at `args.begin() + 1`).
* `autoHelp` mirrors the constructor's help-flag injection.
-/

namespace Cppcliargs

inductive ArgValue where
  | int : Int → ArgValue
  | bool : Bool → ArgValue
  | str : String → ArgValue
deriving DecidableEq, Repr

inductive ParseError where
  | UnknownArgument
  | MissingRequiredArgument
  | MissingValue
  | InvalidBooleanValue
  | InvalidIntegerValue
  | TypeMismatch
  | DuplicateArgument
  | InvalidArguments
deriving DecidableEq, Repr

structure ParseErrorInfo where
  error : ParseError
  argument : Char
  detail : String
deriving DecidableEq, Repr

abbrev ArgMap := List (Char × ArgValue)

structure Config where
  defaults : ArgMap
  long_names : List (Char × String) := []
  required : List Char := []
  help : List (Char × String) := []

/-- Ordered insert-or-assign on a key-sorted association list: the effect of
`m[k] = v` on a `std::map` (assign when the key exists, insert at the sorted
position otherwise). -/
def mapSet {α : Type} (m : List (Char × α)) (k : Char) (v : α) : List (Char × α) :=
  match m with
  | [] => [(k, v)]
  | (k', v') :: rest =>
    if k = k' then (k, v) :: rest
    else if k < k' then (k, v) :: (k', v') :: rest
    else (k', v') :: mapSet rest k v

/-- Ordered no-duplicate insert on a sorted list of keys: the effect of
`s.insert(k)` on a `std::set<char>`. -/
def setInsert (s : List Char) (k : Char) : List Char :=
  match s with
  | [] => [k]
  | k' :: rest =>
    if k = k' then k' :: rest
    else if k < k' then k :: k' :: rest
    else k' :: setInsert rest k

/-- `parser::find_short_for_long`: scan `long_names_` in iteration order and
return the first key whose long name matches; `'\x00'` is the not-found
sentinel. -/
def findShortForLong (long_names : List (Char × String)) (long_name : String) : Char :=
  match long_names with
  | [] => '\x00'
  | (key, name) :: rest =>
    if name = long_name then key else findShortForLong rest long_name

/-- Value of a digit string read in base 10 (the accumulation performed by
`std::from_chars`). -/
def digitsToNat (ds : List Char) : Nat :=
  ds.foldl (fun acc d => acc * 10 + (d.toNat - 48)) 0

/-- `std::from_chars` on the whole string combined with the caller's
`ec == errc{} && ptr == end` check (src/cppcliargs.hpp:361-362): succeeds
exactly when the entire string is an optional `'-'` followed by at least one
decimal digit and the resulting value fits in a 32-bit signed `int`;
`'+'`, spaces, trailing characters and out-of-range values all fail. -/
def fromCharsInt (s : String) : Option Int :=
  if s.toList.head? = some '-' then
    if s.toList.tail ≠ [] ∧ s.toList.tail.all Char.isDigit = true ∧
        digitsToNat s.toList.tail ≤ 2 ^ 31 then
      some (-(digitsToNat s.toList.tail : Int))
    else none
  else
    if s.toList ≠ [] ∧ s.toList.all Char.isDigit = true ∧ digitsToNat s.toList < 2 ^ 31 then
      some (digitsToNat s.toList : Int)
    else none

/-- `parser::parse_value`: coerce a literal according to the variant of the
flag's default value (`default_val = defaults_.at(arg_char)`, looked up by the
caller).  The C++ fallback `TypeMismatch` branch is dead code for the closed
3-variant type, so the total match here has no counterpart for it. -/
def parse_value (arg_char : Char) (default_val : ArgValue) (value : String) :
    Except ParseErrorInfo ArgValue :=
  match default_val with
  | .bool _ =>
    if value = "true" then .ok (.bool true)
    else if value = "false" then .ok (.bool false)
    else .error ⟨.InvalidBooleanValue, arg_char, value⟩
  | .int _ =>
    match fromCharsInt value with
    | some n => .ok (.int n)
    | none => .error ⟨.InvalidIntegerValue, arg_char, value⟩
  | .str _ => .ok (.str value)

/-- Shape of one token after the tokenizing phase of `parser::operator()`
(src/cppcliargs.hpp:156-211): skipped, unknown long name (`arg_char == '\0'`),
or a resolved flag key with an optional inline `=` value. -/
inductive TokenForm where
  | skip
  | unknownLong
  | flag (arg_char : Char) (inlineValue : Option String)

/-- Tokenizing phase of `parser::operator()` for a single token, over the
token's character list: empty and non-dash tokens, bare `-` and bare `--` are
skipped; `--name[=value]` resolves the long name through `findShortForLong`;
`-k[=value]` takes the character at index 1 as the key (any further characters
that are not an `=` at index 2 are ignored). -/
def classifyTokenList (long_names : List (Char × String)) : List Char → TokenForm
  | [] => .skip
  | c0 :: ctail =>
    if c0 ≠ '-' then .skip
    else
      match ctail with
      | [] => .skip
      | c1 :: ctail2 =>
        if c1 = '-' then
          match ctail2 with
          | [] => .skip
          | _ :: _ =>
            match ctail2.dropWhile (fun c => c ≠ '=') with
            | _ :: value =>
              let k := findShortForLong long_names
                (String.mk (ctail2.takeWhile (fun c => c ≠ '=')))
              if k = '\x00' then .unknownLong
              else .flag k (some (String.mk value))
            | [] =>
              let k := findShortForLong long_names (String.mk ctail2)
              if k = '\x00' then .unknownLong else .flag k none
        else
          match ctail2 with
          | c2 :: ctail3 =>
            if c2 = '=' then .flag c1 (some (String.mk ctail3))
            else .flag c1 none
          | [] => .flag c1 none

/-- Tokenizing phase of `parser::operator()` for a single token
(src/cppcliargs.hpp:156-211). -/
def classifyToken (long_names : List (Char × String)) (arg : String) : TokenForm :=
  classifyTokenList long_names arg.toList

/-- Final `required` check of `parser::operator()` (src/cppcliargs.hpp:283-292):
the first required key missing from the seen-set yields
`MissingRequiredArgument` with the key's long name as detail when one exists. -/
def checkRequired (long_names : List (Char × String)) (seen : List Char) :
    List Char → Option ParseErrorInfo
  | [] => none
  | req :: rest =>
    if seen.contains req then checkRequired long_names seen rest
    else some ⟨.MissingRequiredArgument, req, ((long_names.lookup req).getD "")⟩

/-- The token loop of `parser::operator()`: `result` starts as the defaults,
`seen` is the `seen_args` set, and value-consuming flags take the next token
via the `++it` look-ahead. -/
def parseLoop (s : Config) (result : ArgMap) (seen : List Char) :
    List String → Except ParseErrorInfo ArgMap
  | [] =>
    match checkRequired s.long_names seen s.required with
    | some e => .error e
    | none => .ok result
  | arg :: rest =>
    match classifyToken s.long_names arg with
    | .skip => parseLoop s result seen rest
    | .unknownLong => .error ⟨.UnknownArgument, '-', arg⟩
    | .flag arg_char inlineVal =>
      match s.defaults.lookup arg_char with
      | none => .error ⟨.UnknownArgument, arg_char, arg⟩
      | some default_val =>
        if seen.contains arg_char then .error ⟨.DuplicateArgument, arg_char, ""⟩
        else
          match inlineVal with
          | some v =>
            match parse_value arg_char default_val v with
            | .error e => .error e
            | .ok pv => parseLoop s (mapSet result arg_char pv) (setInsert seen arg_char) rest
          | none =>
            match default_val with
            | .bool _ =>
              if s.required.contains arg_char then
                match rest with
                | [] => .error ⟨.MissingValue, arg_char, "required boolean needs explicit value"⟩
                | bv :: rest2 =>
                  match parse_value arg_char default_val bv with
                  | .error e => .error e
                  | .ok pv =>
                    parseLoop s (mapSet result arg_char pv) (setInsert seen arg_char) rest2
              else
                parseLoop s (mapSet result arg_char (.bool true)) (setInsert seen arg_char) rest
            | _ =>
              match rest with
              | [] => .error ⟨.MissingValue, arg_char, ""⟩
              | nv :: rest2 =>
                match parse_value arg_char default_val nv with
                | .error e => .error e
                | .ok pv =>
                  parseLoop s (mapSet result arg_char pv) (setInsert seen arg_char) rest2

/-- `parser::operator()` applied to a token list that excludes the program
name (the C++ loop starts at `args.begin() + 1`). -/
def parse (s : Config) (tokens : List String) : Except ParseErrorInfo ArgMap :=
  parseLoop s s.defaults [] tokens

/-- Help-flag injection performed once by both `parser` constructors
(src/cppcliargs.hpp:112-116 and 134-138): when `'h'` is not among the
defaults, add it as a boolean-`false` flag with long name `"help"`. -/
def autoHelp (c : Config) : Config :=
  if (c.defaults.lookup 'h').isSome then c
  else
    { c with
      defaults := mapSet c.defaults 'h' (.bool false)
      long_names := mapSet c.long_names 'h' "help" }

/-- Spec-side notion, written from the spec's words for comparison with the
code's `fromCharsInt`: `L` "is a valid base-10 signed integer with no
extraneous characters", i.e. an optional leading `'-'` followed by one or more
decimal digits and nothing else (no range restriction). -/
def isBase10SignedIntegerLiteral (L : String) : Prop :=
  (L.toList.head? = some '-' ∧ L.toList.tail ≠ [] ∧ L.toList.tail.all Char.isDigit = true) ∨
  (L.toList.head? ≠ some '-' ∧ L.toList ≠ [] ∧ L.toList.all Char.isDigit = true)

instance (L : String) : Decidable (isBase10SignedIntegerLiteral L) := by
  unfold isBase10SignedIntegerLiteral
  infer_instance

/-- Spec-side denotation of a base-10 signed integer literal: the exact
mathematical integer the literal writes down. -/
def literalInt (L : String) : Int :=
  if L.toList.head? = some '-' then -(digitsToNat L.toList.tail : Int)
  else (digitsToNat L.toList : Int)

/-! ### Helper lemmas -/

lemma takeWhile_append_eq_of_not_mem (l1 l2 : List Char) (h : '=' ∉ l1) :
    (l1 ++ '=' :: l2).takeWhile (fun c => c ≠ '=') = l1 := by
  induction l1 with
  | nil => simp [List.takeWhile]
  | cons c cs ih =>
    have hc : c ≠ '=' := fun hceq => h (hceq ▸ List.mem_cons_self c cs)
    have hcs : '=' ∉ cs := fun hm => h (List.mem_cons_of_mem c hm)
    have ih2 := ih hcs
    simp only [decide_not] at ih2
    simp [List.takeWhile, hc, ih2]

lemma dropWhile_append_eq_of_not_mem (l1 l2 : List Char) (h : '=' ∉ l1) :
    (l1 ++ '=' :: l2).dropWhile (fun c => c ≠ '=') = '=' :: l2 := by
  induction l1 with
  | nil => simp [List.dropWhile]
  | cons c cs ih =>
    have hc : c ≠ '=' := fun hceq => h (hceq ▸ List.mem_cons_self c cs)
    have hcs : '=' ∉ cs := fun hm => h (List.mem_cons_of_mem c hm)
    have ih2 := ih hcs
    simp only [decide_not] at ih2
    simp [List.dropWhile, hc, ih2]

lemma classifyTokenList_short (ln : List (Char × String)) (k : Char) (hk : k ≠ '-') :
    classifyTokenList ln ['-', k] = .flag k none := by
  simp [classifyTokenList, hk]

lemma classifyTokenList_short_eq (ln : List (Char × String)) (k : Char) (v : String)
    (hk : k ≠ '-') :
    classifyTokenList ln ('-' :: k :: '=' :: v.toList) = .flag k (some (String.mk v.toList)) := by
  simp [classifyTokenList, hk]

lemma classifyTokenList_short_noeq (ln : List (Char × String)) (k d : Char) (ds : List Char)
    (hk : k ≠ '-') (hd : d ≠ '=') :
    classifyTokenList ln ('-' :: k :: d :: ds) = .flag k none := by
  simp [classifyTokenList, hk, hd]

lemma classifyTokenList_long_eq (ln : List (Char × String)) (name : List Char) (v : String)
    (k : Char) (hfind : findShortForLong ln (String.mk name) = k) (hk0 : k ≠ '\x00')
    (hne : '=' ∉ name) :
    classifyTokenList ln ('-' :: '-' :: (name ++ '=' :: v.toList)) =
      .flag k (some (String.mk v.toList)) := by
  have hcons : ∃ c cs, name ++ '=' :: v.toList = c :: cs := by
    cases name with
    | nil => exact ⟨'=', v.toList, rfl⟩
    | cons c cs => exact ⟨c, cs ++ '=' :: v.toList, rfl⟩
  obtain ⟨c, cs, hcs⟩ := hcons
  simp only [classifyTokenList, hcs]
  rw [← hcs]
  rw [dropWhile_append_eq_of_not_mem name v.toList hne,
    takeWhile_append_eq_of_not_mem name v.toList hne]
  simp [hfind, hk0]

lemma checkRequired_eq_find (ln : List (Char × String)) (seen : List Char)
    (req : List Char) :
    checkRequired ln seen req =
      (req.find? (fun r => !seen.contains r)).map
        (fun r => ⟨.MissingRequiredArgument, r, ((ln.lookup r).getD "")⟩) := by
  induction req with
  | nil => rfl
  | cons r rest ih =>
    by_cases h : r ∈ seen
    · simp [checkRequired, List.find?, h, ih]
    · simp [checkRequired, List.find?, h, ih]

/-! ### Claims -/

/-- **C1.** For every schema `S`, parsing an empty token list succeeds iff
`S.required` is empty; on success the result map is exactly `S.defaults`
(no extra, no missing keys), and on failure the error is
`MissingRequiredArgument` for the first required key. -/
theorem parse_empty_tokens (s : Config) :
    parse s [] =
      (match s.required with
       | [] => .ok s.defaults
       | r :: _ => .error ⟨.MissingRequiredArgument, r, ((s.long_names.lookup r).getD "")⟩) := by
  cases hreq : s.required with
  | nil => simp [parse, parseLoop, checkRequired, hreq]
  | cons r rest => simp [parse, parseLoop, checkRequired, hreq]

/-- **C3.** Boolean coercion succeeds only on the exact literals `"true"`
(yielding `true`) and `"false"` (yielding `false`); every other literal yields
an `InvalidBooleanValue` failure tagged with the flag's key and carrying the
literal as detail. -/
theorem parse_value_bool_exact (k : Char) (b : Bool) (v : String) :
    (parse_value k (.bool b) v = .ok (.bool true) ↔ v = "true") ∧
    (parse_value k (.bool b) v = .ok (.bool false) ↔ v = "false") ∧
    (v ≠ "true" → v ≠ "false" →
      parse_value k (.bool b) v = .error ⟨.InvalidBooleanValue, k, v⟩) := by
  refine ⟨?_, ?_, ?_⟩
  · by_cases h1 : v = "true"
    · simp [parse_value, h1]
    · by_cases h2 : v = "false" <;> simp [parse_value, h1, h2]
  · by_cases h1 : v = "true"
    · simp [parse_value, h1]
    · by_cases h2 : v = "false" <;> simp [parse_value, h1, h2]
  · intro h1 h2
    simp [parse_value, h1, h2]

/-- Witness for `parse_value_bool_exact`: the literal `"True"` is rejected with
`InvalidBooleanValue`. -/
theorem parse_value_bool_exact_witness :
    parse_value 'x' (.bool false) "True" = .error ⟨.InvalidBooleanValue, 'x', "True"⟩ :=
  (parse_value_bool_exact 'x' false "True").2.2 (by decide) (by decide)

lemma fromCharsInt_some_of_literal (L : String) (h : isBase10SignedIntegerLiteral L)
    (hlo : -(2 ^ 31) ≤ literalInt L) (hhi : literalInt L < 2 ^ 31) :
    fromCharsInt L = some (literalInt L) := by
  rcases h with ⟨hneg, h1, h2⟩ | ⟨hneg, h1, h2⟩
  · have hlit : literalInt L = -(digitsToNat L.toList.tail : Int) := by
      unfold literalInt
      rw [if_pos hneg]
    rw [hlit] at hlo ⊢
    have hn : digitsToNat L.toList.tail ≤ 2 ^ 31 := by omega
    unfold fromCharsInt
    rw [if_pos hneg, if_pos ⟨h1, h2, hn⟩]
  · have hlit : literalInt L = (digitsToNat L.toList : Int) := by
      unfold literalInt
      rw [if_neg hneg]
    rw [hlit] at hhi ⊢
    have hn : digitsToNat L.toList < 2 ^ 31 := by omega
    unfold fromCharsInt
    rw [if_neg hneg, if_pos ⟨h1, h2, hn⟩]

lemma fromCharsInt_none_of_not_literal (L : String)
    (h : ¬(isBase10SignedIntegerLiteral L ∧
      -(2 ^ 31) ≤ literalInt L ∧ literalInt L < 2 ^ 31)) :
    fromCharsInt L = none := by
  by_cases hneg : L.toList.head? = some '-'
  · have hlit : literalInt L = -(digitsToNat L.toList.tail : Int) := by
      unfold literalInt
      rw [if_pos hneg]
    unfold fromCharsInt
    rw [if_pos hneg]
    apply if_neg
    rintro ⟨h1, h2, h3⟩
    apply h
    refine ⟨Or.inl ⟨hneg, h1, h2⟩, ?_, ?_⟩
    · rw [hlit]
      omega
    · rw [hlit]
      have := Int.natCast_nonneg (digitsToNat L.toList.tail)
      omega
  · have hlit : literalInt L = (digitsToNat L.toList : Int) := by
      unfold literalInt
      rw [if_neg hneg]
    unfold fromCharsInt
    rw [if_neg hneg]
    apply if_neg
    rintro ⟨h1, h2, h3⟩
    apply h
    refine ⟨Or.inr ⟨hneg, h1, h2⟩, ?_, ?_⟩
    · rw [hlit]
      have := Int.natCast_nonneg (digitsToNat L.toList)
      omega
    · rw [hlit]
      omega

/-- Counterexample for **C4** as stated: `"2147483648"` is a valid base-10
signed integer literal with no extraneous characters, yet integer coercion
rejects it with `InvalidIntegerValue` (it exceeds the 32-bit `int` range used
by `std::from_chars<int>`). -/
theorem int_coercion_overflow_counterexample :
    isBase10SignedIntegerLiteral "2147483648" ∧
    parse_value 'n' (.int 0) "2147483648" =
      .error ⟨.InvalidIntegerValue, 'n', "2147483648"⟩ := by
  constructor
  · decide
  · rfl

/-- **C4 (amended).** For an integer-typed flag, coercion succeeds and
round-trips the literal's exact mathematical value precisely when the literal
is a base-10 signed integer with no extraneous characters *whose value fits
the 32-bit signed range*; any parse failure, partial match, or out-of-range
value yields `InvalidIntegerValue` tagged with the key and the literal. -/
theorem int_coercion_roundtrip (k : Char) (d : Int) (L : String) :
    (isBase10SignedIntegerLiteral L ∧ -(2 ^ 31) ≤ literalInt L ∧ literalInt L < 2 ^ 31 →
      parse_value k (.int d) L = .ok (.int (literalInt L))) ∧
    (¬(isBase10SignedIntegerLiteral L ∧ -(2 ^ 31) ≤ literalInt L ∧ literalInt L < 2 ^ 31) →
      parse_value k (.int d) L = .error ⟨.InvalidIntegerValue, k, L⟩) := by
  constructor
  · rintro ⟨h1, h2, h3⟩
    simp [parse_value, fromCharsInt_some_of_literal L h1 h2 h3]
  · intro h
    simp [parse_value, fromCharsInt_none_of_not_literal L h]

/-- Witness for `int_coercion_roundtrip`: the literal `"-42"` is in range and
coerces to the integer `-42`. -/
theorem int_coercion_roundtrip_witness :
    parse_value 'n' (.int 0) "-42" = .ok (.int (-42)) := by
  have h := (int_coercion_roundtrip 'n' 0 "-42").1 ⟨by decide, by decide, by decide⟩
  have hv : literalInt "-42" = -42 := by decide
  rw [hv] at h
  exact h

lemma mk_toList (v : String) : String.mk v.toList = v := rfl

/-- Counterexample for **C2** as stated: for a *non-required boolean* flag the
inline form `-v=false` stores `false`, while the two-token form `-v false`
sets the flag to `true` by mere presence and skips the token `"false"`, so the
three forms are not always equivalent. -/
theorem form_equivalence_counterexample :
    parse ⟨[('v', .bool false)], [('v', "verbose")], [], []⟩ ["-v=false"] =
      .ok [('v', .bool false)] ∧
    parse ⟨[('v', .bool false)], [('v', "verbose")], [], []⟩ ["-v", "false"] =
      .ok [('v', .bool true)] ∧
    (ArgValue.bool false) ≠ (ArgValue.bool true) :=
  ⟨rfl, rfl, by decide⟩

/-- **C2 (amended).** For every flag key `k` whose long alias resolves to `k`,
and every literal `v`, the three token forms `--long=v`, `-k=v` and `-k v`
(two tokens) produce identical parse outcomes with the rest of the token list
equal, *provided the flag actually consumes a value token*: its type is
integer or text, or it is a boolean in the required set.  (For non-required
booleans the two-token form does not consume `v`.) -/
theorem equals_and_spaced_forms_agree (s : Config) (name : List Char) (k : Char)
    (dv : ArgValue) (v : String)
    (hfind : findShortForLong s.long_names (String.mk name) = k)
    (hk0 : k ≠ '\x00') (hkd : k ≠ '-') (hne : '=' ∉ name)
    (hdv : s.defaults.lookup k = some dv)
    (hty : ∀ b, dv = .bool b → s.required.contains k = true) :
    ∀ (res : ArgMap) (seen : List Char) (rest : List String),
      parseLoop s res seen (String.mk ('-' :: '-' :: (name ++ '=' :: v.toList)) :: rest) =
        parseLoop s res seen (String.mk ('-' :: k :: '=' :: v.toList) :: rest) ∧
      parseLoop s res seen (String.mk ('-' :: k :: '=' :: v.toList) :: rest) =
        parseLoop s res seen (String.mk ['-', k] :: v :: rest) := by
  intro res seen rest
  have hlong : classifyToken s.long_names
      (String.mk ('-' :: '-' :: (name ++ '=' :: v.toList))) =
      .flag k (some (String.mk v.toList)) :=
    classifyTokenList_long_eq s.long_names name v k hfind hk0 hne
  have hshort : classifyToken s.long_names (String.mk ('-' :: k :: '=' :: v.toList)) =
      .flag k (some (String.mk v.toList)) :=
    classifyTokenList_short_eq s.long_names k v hkd
  have htwo : classifyToken s.long_names (String.mk ['-', k]) = .flag k none :=
    classifyTokenList_short s.long_names k hkd
  constructor
  · show parseLoop s res seen (_ :: rest) = parseLoop s res seen (_ :: rest)
    simp only [parseLoop, classifyToken] at hlong hshort ⊢
    rw [hlong, hshort]
    simp [hdv]
  · show parseLoop s res seen (_ :: rest) = parseLoop s res seen (_ :: v :: rest)
    simp only [parseLoop, classifyToken] at hshort htwo ⊢
    rw [hshort, htwo]
    by_cases hseen : k ∈ seen
    · simp [hdv, hseen]
    · cases dv with
      | bool b =>
        have hreq : k ∈ s.required := by simpa using hty b rfl
        simp [hdv, hseen, hreq, mk_toList]
      | int n => simp [hdv, hseen, mk_toList]
      | str t => simp [hdv, hseen, mk_toList]

/-- Witness for `equals_and_spaced_forms_agree`: for an integer flag `n`
aliased to `num`, `--num=5`, `-n=5` and `-n 5` all succeed with `n = 5`. -/
theorem equals_and_spaced_forms_agree_witness :
    parse ⟨[('n', .int 0)], [('n', "num")], [], []⟩ ["--num=5"] =
      parse ⟨[('n', .int 0)], [('n', "num")], [], []⟩ ["-n", "5"] ∧
    parse ⟨[('n', .int 0)], [('n', "num")], [], []⟩ ["-n", "5"] =
      .ok [('n', .int 5)] := by
  have h := equals_and_spaced_forms_agree ⟨[('n', .int 0)], [('n', "num")], [], []⟩
    ['n', 'u', 'm'] 'n' (.int 0) "5" (by decide) (by decide) (by decide) (by decide)
    (by decide) (fun b hb => ArgValue.noConfusion hb) [('n', .int 0)] [] []
  exact ⟨h.1.trans h.2, rfl⟩

/-- **C5.** For a boolean-typed flag `-k` appearing without an inline value:
if `k` is not required, presence alone stores `true` and no following token is
consumed; if `k` is required, the next token is consumed as the boolean
literal, and its absence yields `MissingValue` with the explanatory detail. -/
theorem bool_flag_presence_semantics (s : Config) (res : ArgMap) (seen : List Char)
    (k : Char) (b : Bool) (rest : List String)
    (hdv : s.defaults.lookup k = some (.bool b))
    (hseen : k ∉ seen) (hk : k ≠ '-') :
    (k ∉ s.required →
      parseLoop s res seen (String.mk ['-', k] :: rest) =
        parseLoop s (mapSet res k (.bool true)) (setInsert seen k) rest) ∧
    (k ∈ s.required → rest = [] →
      parseLoop s res seen (String.mk ['-', k] :: rest) =
        .error ⟨.MissingValue, k, "required boolean needs explicit value"⟩) ∧
    (∀ v rest2, k ∈ s.required → rest = v :: rest2 →
      parseLoop s res seen (String.mk ['-', k] :: rest) =
        (match parse_value k (.bool b) v with
         | .error e => .error e
         | .ok pv => parseLoop s (mapSet res k pv) (setInsert seen k) rest2)) := by
  have htok : classifyToken s.long_names (String.mk ['-', k]) = .flag k none :=
    classifyTokenList_short s.long_names k hk
  refine ⟨?_, ?_, ?_⟩
  · intro hreq
    simp only [parseLoop, classifyToken] at htok ⊢
    rw [htok]
    simp [hdv, hseen, hreq]
  · intro hreq hrest
    subst hrest
    simp only [parseLoop, classifyToken] at htok ⊢
    rw [htok]
    simp [hdv, hseen, hreq]
  · intro v rest2 hreq hrest
    subst hrest
    simp only [parseLoop, classifyToken] at htok ⊢
    rw [htok]
    simp [hdv, hseen, hreq]

/-- Witness for `bool_flag_presence_semantics`: a required boolean flag given
as a bare `-v` with no following token fails with `MissingValue`. -/
theorem bool_flag_presence_semantics_witness :
    parse ⟨[('v', .bool false)], [], ['v'], []⟩ ["-v"] =
      .error ⟨.MissingValue, 'v', "required boolean needs explicit value"⟩ := by
  have h := (bool_flag_presence_semantics ⟨[('v', .bool false)], [], ['v'], []⟩
    [('v', .bool false)] [] 'v' false [] rfl (by simp) (by decide)).2.1 (by simp) rfl
  exact h

/-- **C6.** Whenever a token resolves (in short, long, or equals form) to a
flag key that is already in the seen-set, parsing fails with
`DuplicateArgument` tagged with that key, regardless of any value supplied. -/
theorem duplicate_flag_error (s : Config) (res : ArgMap) (seen : List Char)
    (t : String) (rest : List String) (k : Char) (iv : Option String) (dv : ArgValue)
    (hclass : classifyToken s.long_names t = .flag k iv)
    (hdv : s.defaults.lookup k = some dv)
    (hseen : k ∈ seen) :
    parseLoop s res seen (t :: rest) = .error ⟨.DuplicateArgument, k, ""⟩ := by
  simp only [parseLoop, classifyToken] at hclass ⊢
  rw [hclass]
  simp [hdv, hseen]

/-- Witness for `duplicate_flag_error`: after `-n 10` has been parsed, a
second `-n` fails with `DuplicateArgument` tagged `n`. -/
theorem duplicate_flag_error_witness :
    parse ⟨[('n', .int 0)], [], [], []⟩ ["-n", "10", "-n", "20"] =
      .error ⟨.DuplicateArgument, 'n', ""⟩ := by
  have h := duplicate_flag_error ⟨[('n', .int 0)], [], [], []⟩ [('n', .int 10)] ['n']
    "-n" ["20"] 'n' none (.int 0) rfl rfl (by simp)
  exact h

/-- **C7.** When every token has been processed without failure, parsing fails
with `MissingRequiredArgument` tagged with the first key in the required-set
iteration order that was never seen, carrying that key's long name (or `""`)
as detail; if no required key is missing, it returns the accumulated map. -/
theorem missing_required_first (s : Config) (res : ArgMap) (seen : List Char) :
    (∀ r, (s.required.find? fun c => !seen.contains c) = some r →
      parseLoop s res seen [] =
        .error ⟨.MissingRequiredArgument, r, ((s.long_names.lookup r).getD "")⟩) ∧
    ((s.required.find? fun c => !seen.contains c) = none →
      parseLoop s res seen [] = .ok res) := by
  constructor
  · intro r hr
    simp at hr
    simp [parseLoop, checkRequired_eq_find, hr]
  · intro hr
    simp at hr
    have hr2 : (List.find? (fun r => !decide (r ∈ seen)) s.required) = none := by
      apply List.find?_eq_none.mpr
      intro x hx
      simp [hr x hx]
    simp [parseLoop, checkRequired_eq_find, hr2]

/-- Witness for `missing_required_first`: with required keys `a` then `b` and
no tokens, the failure names `a` and carries its long name `"alpha"`. -/
theorem missing_required_first_witness :
    parse ⟨[('a', .int 0), ('b', .int 0)], [('a', "alpha")], ['a', 'b'], []⟩ [] =
      .error ⟨.MissingRequiredArgument, 'a', "alpha"⟩ := by
  have h := (missing_required_first
    ⟨[('a', .int 0), ('b', .int 0)], [('a', "alpha")], ['a', 'b'], []⟩
    [('a', .int 0), ('b', .int 0)] []).1 'a' (by decide)
  exact h

lemma classifyTokenList_skip (ln : List (Char × String)) (l : List Char)
    (h : l.head? ≠ some '-' ∨ l = ['-'] ∨ l = ['-', '-']) :
    classifyTokenList ln l = .skip := by
  rcases h with h | h | h
  · cases l with
    | nil => rfl
    | cons c0 ctail =>
      have hc : c0 ≠ '-' := by
        intro hc
        exact h (by simp [hc])
      simp [classifyTokenList, hc]
  · subst h
    rfl
  · subst h
    rfl

/-- **C8.** Any token not starting with `'-'`, the bare token `-`, and the
bare token `--` are skipped without error wherever they appear, and tokens
after a `--` are still parsed as options: with schema `{n : int default 0}`,
the tokens `-- -n 5` succeed with `n = 5`. -/
theorem skip_tokens_and_ddash (s : Config) (res : ArgMap) (seen : List Char) :
    (∀ (t : String) (rest : List String),
      t.toList.head? ≠ some '-' ∨ t.toList = ['-'] ∨ t.toList = ['-', '-'] →
      parseLoop s res seen (t :: rest) = parseLoop s res seen rest) ∧
    parse ⟨[('n', .int 0)], [], [], []⟩ ["--", "-n", "5"] = .ok [('n', .int 5)] := by
  constructor
  · intro t rest ht
    have hskip : classifyTokenList s.long_names t.toList = .skip :=
      classifyTokenList_skip s.long_names t.toList ht
    simp only [parseLoop, classifyToken]
    rw [hskip]
  · rfl

/-- Witness for `skip_tokens_and_ddash`: a positional-looking token is
silently ignored, leaving the defaults untouched. -/
theorem skip_tokens_and_ddash_witness :
    parse ⟨[('x', .str "s")], [], [], []⟩ ["hello"] = .ok [('x', .str "s")] := by
  have h := (skip_tokens_and_ddash ⟨[('x', .str "s")], [], [], []⟩
    [('x', .str "s")] []).1 "hello" [] (Or.inl (by decide))
  exact h.trans rfl

/-- Counterexample for **C9** as stated: `-abc` is *not* parsed exactly as
`-a` would be when the key `a` is unknown — both fail with `UnknownArgument`
tagged `'a'`, but the failure detail carries the full original token, so the
two outcomes differ. -/
theorem short_suffix_counterexample :
    parse ⟨[('n', .int 0)], [], [], []⟩ ["-abc"] =
      .error ⟨.UnknownArgument, 'a', "-abc"⟩ ∧
    parse ⟨[('n', .int 0)], [], [], []⟩ ["-a"] =
      .error ⟨.UnknownArgument, 'a', "-a"⟩ ∧
    (⟨.UnknownArgument, 'a', "-abc"⟩ : ParseErrorInfo) ≠ ⟨.UnknownArgument, 'a', "-a"⟩ :=
  ⟨rfl, rfl, by decide⟩

/-- **C9 (amended).** For a short-form token of length ≥ 3 whose character at
index 2 is not `'='`, only the character at index 1 is used as the flag key
and the remaining characters are silently discarded — no error from the extra
characters, no flag bundling, and the suffix is never used as a value.  When
the key is recognized the outcome is identical to that of the two-character
token; when the key is unknown both forms fail with `UnknownArgument` tagged
with the key, the only difference being that the detail carries the full
original token. -/
theorem short_token_suffix_discarded (s : Config) (res : ArgMap) (seen : List Char)
    (k d : Char) (ds : List Char) (ts : List String)
    (hk : k ≠ '-') (hd : d ≠ '=') :
    (∀ dv, s.defaults.lookup k = some dv →
      parseLoop s res seen (String.mk ('-' :: k :: d :: ds) :: ts) =
        parseLoop s res seen (String.mk ['-', k] :: ts)) ∧
    (s.defaults.lookup k = none →
      parseLoop s res seen (String.mk ('-' :: k :: d :: ds) :: ts) =
        .error ⟨.UnknownArgument, k, String.mk ('-' :: k :: d :: ds)⟩) := by
  have h1 : classifyToken s.long_names (String.mk ('-' :: k :: d :: ds)) = .flag k none :=
    classifyTokenList_short_noeq s.long_names k d ds hk hd
  have h2 : classifyToken s.long_names (String.mk ['-', k]) = .flag k none :=
    classifyTokenList_short s.long_names k hk
  constructor
  · intro dv hdv
    simp only [parseLoop, classifyToken] at h1 h2 ⊢
    rw [h1, h2]
    simp [hdv]
  · intro hdv
    simp only [parseLoop, classifyToken] at h1 ⊢
    rw [h1]
    simp [hdv]

/-- Witness for `short_token_suffix_discarded`: with known key `n`, the token
`-num` parses exactly as `-n` (here: both report `MissingValue` for `n`). -/
theorem short_token_suffix_discarded_witness :
    parse ⟨[('n', .int 0)], [], [], []⟩ ["-num"] =
      parse ⟨[('n', .int 0)], [], [], []⟩ ["-n"] := by
  have h := (short_token_suffix_discarded ⟨[('n', .int 0)], [], [], []⟩ [('n', .int 0)] []
    'n' 'u' ['m'] [] (by decide) (by decide)).1 (.int 0) rfl
  exact h

/-- **C10.** When a flag that must consume a value (integer or text type, or a
required boolean) appears without an inline value and a next token exists,
that next token is consumed verbatim as the value literal — whatever its
shape, including `-`/`--` prefixes — and is never classified as an option,
never reported unknown, and never added to the seen-set (only the flag's own
key is inserted). -/
theorem value_token_consumed_verbatim (s : Config) (res : ArgMap) (seen : List Char)
    (k : Char) (dv : ArgValue)
    (hdv : s.defaults.lookup k = some dv)
    (hty : ∀ b, dv = .bool b → s.required.contains k = true)
    (hseen : k ∉ seen) (hk : k ≠ '-') :
    ∀ (v : String) (ts : List String),
      parseLoop s res seen (String.mk ['-', k] :: v :: ts) =
        (match parse_value k dv v with
         | .error e => .error e
         | .ok pv => parseLoop s (mapSet res k pv) (setInsert seen k) ts) := by
  intro v ts
  have htok : classifyToken s.long_names (String.mk ['-', k]) = .flag k none :=
    classifyTokenList_short s.long_names k hk
  simp only [parseLoop, classifyToken] at htok ⊢
  rw [htok]
  cases dv with
  | bool b =>
    have hreq : k ∈ s.required := by simpa using hty b rfl
    simp [hdv, hseen, hreq]
  | int n => simp [hdv, hseen]
  | str t => simp [hdv, hseen]

/-- Witness for `value_token_consumed_verbatim`: the dash-prefixed token `-7`
is consumed as the integer value of `-n`, not treated as an option. -/
theorem value_token_consumed_verbatim_witness :
    parse ⟨[('n', .int 0)], [], [], []⟩ ["-n", "-7"] = .ok [('n', .int (-7))] := by
  have h := value_token_consumed_verbatim ⟨[('n', .int 0)], [], [], []⟩ [('n', .int 0)] []
    'n' (.int 0) rfl (fun b hb => ArgValue.noConfusion hb) (by simp) (by decide) "-7" []
  exact h.trans rfl

end Cppcliargs
